import Mathlib

/-!
Verification of the terminal-manager library (`src/terminal_manager`).

Each Python module that the claims touch is shallowly embedded below as
executable Lean definitions, translated from the source:

* `state.py`      -> namespace `StateMod`
* `collection.py` -> namespace `CollMod`
* `sensor.py`     -> namespaces `BinMod` (BinarySensor conversion),
                     `PipeMod` (value-update pipeline) and `SensMod`
                     (base sensors with dynamic children)
* `command.py`    -> namespaces `SensMod` (SensorCommand.update_sensors)
                     and `GraphMod` (Command.check / linked_sensors)
* `manager.py`    -> namespace `MgrMod` (async_set_sensor_values)

Python exceptions are modelled with `Option`/`Except`; `None` is `Option.none`;
Python truthiness of optional strings is made explicit where the source
relies on it.
-/

namespace TM

/-- Python `str.strip` (both-sided whitespace trim), as used throughout
`sensor.py` and `command.py`, computed over the character list. -/
def pyStrip (s : String) : String :=
  ((s.toList.dropWhile Char.isWhitespace).reverse.dropWhile Char.isWhitespace).reverse.asString

/-- Python `str.lower`, computed over the character list (the strings the
library lowercases are ASCII word-list candidates and slug inputs). -/
def pyLower (s : String) : String := (s.toList.map Char.toLower).asString

/-- `helpers.name_to_key`: the source calls the external `slugify` library with
separator `_`.  The library is not part of this repository; this is an ASCII
model of it (lowercase letters and digits kept, every other run of characters
collapsed to a single `_`, leading/trailing `_` removed).  The source raises
`NameKeyError` on a falsy (empty) name, which this total function does not
model: every theorem quantifying over inputs that reach it therefore carries
the hypothesis that the name is nonempty after stripping, and all concrete
inputs below are nonempty simple ASCII identifiers, on which `slugify` acts
exactly like this model. -/
def nameToKey (name : String) : String :=
  let isKeep : Char → Bool := fun c => c.isAlpha || c.isDigit
  let lowered := pyLower name
  let parts := (lowered.toList.splitOnP (fun c => !isKeep c)).map List.asString
  String.intercalate "_" (parts.filter (fun p => p ≠ ""))

end TM

/-! ## `state.py` — namespace `StateMod` (claim C8) -/

namespace StateMod

/-- `state.Request` string enum. -/
inductive Request where
  | turn_on
  | turn_off
  | restart
  | connect
deriving DecidableEq, Repr

/-- The four observable fields of `state.State` (`STATE_NAMES`).  The manager
backreference, timestamps and events carry no state that `handle_ping_error`
reads or writes and are not modelled. -/
structure State where
  online : Bool
  connected : Bool
  request : Option Request
  error : Bool
deriving DecidableEq, Repr

/-- `State.handle_ping_error`, translated statement by statement: two
sequential `if`s on `request`, then `online = False`. -/
def handlePingError (s : State) : State :=
  let s := if s.request = some Request.turn_off then { s with request := none } else s
  let s := if s.request = some Request.restart then { s with request := some Request.turn_on } else s
  { s with online := false }

end StateMod

/-! ## `sensor.py` — `BinarySensor._convert` (claim C9) -/

namespace BinMod

/-- `sensor.TRUE_STRINGS`. -/
def TRUE_STRINGS : List String := ["true", "enabled", "on", "active", "1"]

/-- `sensor.FALSE_STRINGS`. -/
def FALSE_STRINGS : List String := ["false", "disabled", "off", "inactive", "0"]

/-- Python truthiness of an optional string field (`if self.payload_on:`):
`None` and the empty string are falsy. -/
def truthy : Option String → Bool
  | none => false
  | some s => s ≠ ""

/-- `BinarySensor._convert`.  `none` models the raised `ValueError`.
The source's early returns are flattened into a guard chain that fires in the
same order as the source's statements. -/
def binaryConvert (payload_on payload_off : Option String) (value_string : String) :
    Option Bool :=
  if truthy payload_on ∧ payload_on = some value_string then
    some true
  else if truthy payload_on ∧ ¬ truthy payload_off then
    some false
  else if truthy payload_off ∧ payload_off = some value_string then
    some false
  else if truthy payload_off ∧ ¬ truthy payload_on then
    some true
  else if TM.pyLower value_string ∈ TRUE_STRINGS then
    some true
  else if TM.pyLower value_string ∈ FALSE_STRINGS then
    some false
  else
    none

end BinMod

/-! ## `collection.py` — action commands (claim C7) -/

namespace CollMod

/-- `command.ActionCommand` after `__post_init__`: `key` is already the
computed key, `name` is `None` or a stripped string.  `renderer` is kept
`None` throughout this development, so it is not a field; the dataclass
fields that take part in `==` are modelled. -/
structure ActionCommand where
  string : String
  timeout : Option Nat
  name : Option String
  key : String
  attributes : List (String × String)
  linked : List String
deriving DecidableEq, Repr

/-- Python truthiness of the `name` attribute (`if not command.name`). -/
def nameFalsy : Option String → Bool
  | none => true
  | some s => s = ""

/-- `Collection.action_commands_by_key`: a dict comprehension, so the last
command with a given key wins. -/
def actionCommandsByKey (cmds : List ActionCommand) (key : String) :
    Option ActionCommand :=
  (cmds.filter (fun c => c.key = key)).getLast?

/-- `Collection.remove_action_command`: look the command up by key, then
`list.remove` it, which deletes the first element comparing equal (`==`). -/
def removeActionCommand (cmds : List ActionCommand) (key : String) :
    List ActionCommand :=
  match actionCommandsByKey cmds key with
  | none => cmds
  | some c => cmds.erase c

/-- The name-defaulting step of `add_action_command`: a command without a
truthy name takes the default name registered in `_action_names` for its
key. -/
def withDefaultName (actionNames : String → Option String)
    (command : ActionCommand) : ActionCommand :=
  if nameFalsy command.name ∧ (actionNames command.key).isSome then
    { command with name := actionNames command.key }
  else command

/-- `Collection.add_action_command`: deep-copy (identity on values), remove an
existing occupant with the same key, fill in a default name from
`_action_names`, then append. -/
def addActionCommand (actionNames : String → Option String)
    (cmds : List ActionCommand) (command : ActionCommand) : List ActionCommand :=
  let cmds :=
    if (actionCommandsByKey cmds command.key).isSome then
      removeActionCommand cmds command.key
    else cmds
  cmds ++ [withDefaultName actionNames command]

end CollMod

/-! ## `sensor.py` — the `_update_value` pipeline (claim C6)

`Sensor._render`, `_convert` and `_validate` are methods that subclasses
override; the pipeline is modelled parametrically in those three functions
(`none` / `false` standing for a raised exception), so the theorems hold for
every sensor class. -/

namespace PipeMod

/-- A sensor as `_update_value` sees it: the overridable pipeline methods plus
the two value fields.  `α` is the Python value type of the sensor class. -/
structure Sensor (α : Type) where
  renderer : Option (String → Option String)
  convert : String → Option α
  validate : α → Bool
  value : Option α
  lastKnownValue : Option α

/-- `Sensor._render`: apply the configured renderer (if any), then
`str.strip`.  A raised exception inside the renderer is `none`. -/
def render (renderer : Option (String → Option String)) (data : String) :
    Option String :=
  match renderer with
  | none => some (TM.pyStrip data)
  | some r => (r data).map TM.pyStrip

/-- `Sensor._update_value` on the two value fields: `data is None` clears only
`value`; any exception in render/convert/validate clears only `value`; on
success both fields receive the new value. -/
def updateValue (s : Sensor α) (data : Option String) : Option α × Option α :=
  match data with
  | none => (none, s.lastKnownValue)
  | some d =>
    match render s.renderer d with
    | none => (none, s.lastKnownValue)
    | some value_string =>
      match s.convert value_string with
      | none => (none, s.lastKnownValue)
      | some v => if s.validate v then (some v, some v) else (none, s.lastKnownValue)

/-- The render/convert/validate composition on its own (the "successful new
reading" of the spec): `some v` iff all three stages succeed. -/
def pipeline (s : Sensor α) (data : String) : Option α :=
  match render s.renderer data with
  | none => none
  | some value_string =>
    match s.convert value_string with
    | none => none
    | some v => if s.validate v then some v else none

/-- `Sensor.update` on a non-dynamic sensor: reset `child_sensors` (children
live in `SensMod`; here only the value fields are carried) and run
`_update_value`. -/
def update (s : Sensor α) (data : Option String) : Sensor α :=
  let p := updateValue s data
  { s with value := p.1, lastKnownValue := p.2 }

end PipeMod

/-! ## `manager.py` — `Manager.async_set_sensor_values` (claim C1)

The surrounding machinery (terminal, connection state) is abstracted into a
per-index oracle describing what each poll and each `Sensor.async_set` call
did; the bookkeeping of `async_set_sensor_values` itself — the two error
loops and the final comparison — is translated statement by statement. -/

namespace MgrMod

/-- The members of `SetErrorType` that can land in the errors tuple. -/
inductive SetErr where
  | sensorErr (key : String) (details : String)
  | connectErr
  | executionErr
  | typeErr
  | valueErr
deriving DecidableEq, Repr

/-- Oracle for one index `i` of the call: the error of sensor `i`'s command
after the first poll, the exception (if any) raised by `sensor.async_set`,
the error after the second poll, and `sensor.value` as observed after the
second poll. -/
structure SetStep (α : Type) where
  key : String
  pollError1 : Option SetErr
  setRaises : Option SetErr
  pollError2 : Option SetErr
  observed : Option α

/-- `Sensor.async_set`: every successful path of the source ends without a
`return` statement, so the call evaluates to `None`; this returned `None` is
what the manager assigns back into `values[i]`. -/
def asyncSetReturn (st : SetStep α) : Except SetErr (Option α) :=
  match st.setRaises with
  | some e => Except.error e
  | none => Except.ok none

/-- `Manager.async_set_sensor_values`, returning the errors tuple.  `steps`
and `values` correspond index by index to `keys` and `values` of the call.
First loop: skip indices with a poll error, otherwise run `async_set` and
assign its return value into `values[i]` (on an exception `values[i]` is left
unchanged and the exception is recorded).  Second loop: keep earlier errors,
then take the second poll's error, then compare `values[i] != sensor.value`. -/
def setSensorValues (steps : List (SetStep α)) (values : List α) [DecidableEq α] :
    List (Option SetErr) :=
  let start := steps.zip (values.map some)
  let afterSet := start.map fun p =>
    match p.1.pollError1 with
    | some e => (p.1, some e, p.2)
    | none =>
      match asyncSetReturn p.1 with
      | Except.ok r => (p.1, none, r)
      | Except.error exc => (p.1, some exc, p.2)
  afterSet.map fun t =>
    match t.2.1 with
    | some e => some e
    | none =>
      match t.1.pollError2 with
      | some e => some e
      | none =>
        if t.2.2 ≠ t.1.observed then
          some (SetErr.sensorErr t.1.key "Value not set correctly")
        else none

end MgrMod

/-! ## `sensor.py` base sensors + `command.py` `SensorCommand.update_sensors`
(claims C3, C4, C5)

Sensors here are the base `Sensor` class (renderer `None`, `_convert` the
identity on strings, `_validate` a no-op), which is the class dynamic child
sensors and placeholder sensors instantiate; values are strings.  Child
sensors never have children of their own: `dataclasses.replace` in
`_make_child` re-runs `__post_init__`, which resets `child_sensors` to `[]`. -/

namespace SensMod

/-- A dynamic child sensor (created by `Sensor._make_child`). -/
structure ChildSensor where
  name : Option String
  key : String
  id : Option String
  value : Option String
  lastKnownValue : Option String
deriving DecidableEq, Repr

/-- A sensor owned by a sensor command. -/
structure Sensor where
  name : Option String
  key : String
  dynamic : Bool
  value : Option String
  lastKnownValue : Option String
  children : List ChildSensor
deriving DecidableEq, Repr

/-- `command.DynamicData` after `__init__`. -/
structure DynamicData where
  id : String
  key : String
  name : String
  data : String
deriving DecidableEq, Repr

/-- `DynamicData.__init__`: strip the id field; the display name is the
stripped name field if that is truthy, else the stripped id; the key is the
parent key, `_`, and the slug of the id; the name is prefixed with the parent
sensor's name if that is truthy.  `data` is stored unstripped. -/
def mkDynamicData (sensorKey : String) (sensorName : Option String)
    (id_field data_field : String) (name_field : Option String) : DynamicData :=
  let id := TM.pyStrip id_field
  let nm :=
    match name_field with
    | some n => if n ≠ "" then TM.pyStrip n else id
    | none => id
  { id := id
    key := sensorKey ++ "_" ++ TM.nameToKey id
    name :=
      match sensorName with
      | some sn => if sn ≠ "" then sn ++ " " ++ nm else nm
      | none => nm
    data := data_field }

/-- `Sensor._update_value` for the base class: no renderer (so `_render` is
`str.strip`), identity `_convert`, no-op `_validate` — the pipeline cannot
fail, so any non-null data becomes the new value of both fields. -/
def updateValueBase (lastKnown : Option String) (data : Option String) :
    Option String × Option String :=
  match data with
  | none => (none, lastKnown)
  | some d => (some (TM.pyStrip d), some (TM.pyStrip d))

/-- `update` on a (non-dynamic) child sensor. -/
def updateChild (c : ChildSensor) (data : Option String) : ChildSensor :=
  let p := updateValueBase c.lastKnownValue data
  { c with value := p.1, lastKnownValue := p.2 }

/-- `Sensor._make_child`: copy of the parent with the row's name, key and id,
non-dynamic, and (via `__post_init__`) fresh `value`/`last_known_value`. -/
def makeChild (dd : DynamicData) : ChildSensor :=
  { name := some dd.name, key := dd.key, id := some dd.id
    value := none, lastKnownValue := none }

/-- `dynamic_data_by_key`: a dict comprehension, so for duplicate keys the
last row wins. -/
def dynamicDataByKey (rows : List DynamicData) (k : String) : Option DynamicData :=
  (rows.filter (fun r => r.key = k)).getLast?

/-- First loop of `_update_child_sensors`: append a new child for every row
whose key is not among the current children's keys (the dict of current keys
is recomputed on each iteration, hence the fold). -/
def addMissingChildren (children : List ChildSensor) (rows : List DynamicData) :
    List ChildSensor :=
  rows.foldl
    (fun cs dd =>
      if (cs.map ChildSensor.key).contains dd.key then cs else cs ++ [makeChild dd])
    children

/-- Second loop of `_update_child_sensors`, with CPython's exact iteration
protocol made explicit: the `for` loop keeps an index `i` into the (mutated)
list, reads `l[i]`, increments `i`, then runs the body; `list.remove` deletes
the first element comparing equal.  Removing the current element therefore
shifts the next element into the vacated slot, which the iterator then skips.
`fuel` only bounds the recursion: `i` grows by one per step while the list
never grows, so at most `l.length + 1` steps run and the callers pass that. -/
def removeUpdateChildren (rows : List DynamicData) :
    Nat → List ChildSensor → Nat → List ChildSensor
  | 0, l, _ => l
  | fuel + 1, l, i =>
    if h : i < l.length then
      let c := l.get ⟨i, h⟩
      match dynamicDataByKey rows c.key with
      | some dd => removeUpdateChildren rows fuel (l.set i (updateChild c (some dd.data))) (i + 1)
      | none => removeUpdateChildren rows fuel (l.erase c) (i + 1)
    else l

/-- `Sensor._update_child_sensors`. -/
def updateChildSensors (s : Sensor) (data : Option (List DynamicData)) : Sensor :=
  match data with
  | none => { s with children := s.children.map (fun c => updateChild c none) }
  | some rows =>
    let cs := addMissingChildren s.children rows
    { s with children := removeUpdateChildren rows (cs.length + 1) cs 0 }

/-- The `data` argument of `Sensor.update` (`str | list[DynamicData] | None`). -/
inductive UpdateData where
  | nullData
  | strData (s : String)
  | rowsData (rows : List DynamicData)
deriving DecidableEq, Repr

/-- `Sensor.update`: dynamic sensors clear both value fields and reconcile
children; non-dynamic sensors drop their children and run `_update_value`.
(`update_sensors` only ever passes strings to non-dynamic sensors and row
lists to dynamic ones, matching the source's runtime types.) -/
def update (s : Sensor) (data : UpdateData) : Sensor :=
  if s.dynamic then
    let s := { s with value := none, lastKnownValue := none }
    updateChildSensors s
      (match data with
       | UpdateData.rowsData rows => some rows
       | _ => none)
  else
    let s := { s with children := ([] : List ChildSensor) }
    let p := updateValueBase s.lastKnownValue
      (match data with
       | UpdateData.strData d => some d
       | _ => none)
    { s with value := p.1, lastKnownValue := p.2 }

/-- `manager.CommandOutput` (timestamps as naturals). -/
structure CommandOutput where
  command_string : String
  timestamp : Nat
  stdout : List String
  stderr : List String
  code : Int
deriving DecidableEq, Repr

/-- `command.SensorCommand`: the fields `update_sensors` reads. -/
structure SensorCommand where
  string : String
  separator : Option String
  interval : Option Nat
  sensors : List Sensor
  output : Option CommandOutput
deriving DecidableEq, Repr

/-- Splitting a character list at every occurrence of a nonempty separator,
keeping empty fields; `fuel` only bounds the recursion (one unit per
consumed character suffices, and the callers pass the full length). -/
def splitOnAux (sep : List Char) : Nat → List Char → List Char → List (List Char)
  | _, [], acc => [acc.reverse]
  | 0, l, acc => [acc.reverse ++ l]
  | fuel + 1, c :: rest, acc =>
    if sep.isPrefixOf (c :: rest) then
      acc.reverse :: splitOnAux sep fuel ((c :: rest).drop sep.length) []
    else
      splitOnAux sep fuel rest (c :: acc)

/-- Python `str.split`: with a separator, split at every occurrence keeping
empty fields; with `None`, split on whitespace runs dropping empty fields.
Python raises `ValueError` on an empty separator string, which this total
function does not model: theorems quantifying over the separator carry the
hypothesis `sep ≠ some ""`, and no concrete input below uses one. -/
def pySplit : Option String → String → List String
  | some sep, line =>
    (splitOnAux sep.toList (line.toList.length + 1) line.toList []).map List.asString
  | none, line =>
    ((line.toList.splitOnP Char.isWhitespace).map List.asString).filter (fun f => f ≠ "")

/-- `SensorCommand.clear_sensor_values`: update every sensor with `None`. -/
def clearSensorValues (sensors : List Sensor) : List Sensor :=
  sensors.map (fun s => update s UpdateData.nullData)

/-- The list comprehension of `update_sensors` building the rows for the
dynamic sensor at position `i` (0-based) among the `dynCount` dynamic
sensors: lines whose split has at most `dynCount` fields are dropped; a kept
line contributes `DynamicData(sensor, fields[0], fields[i+1], name?)` where
the name argument is `fields[dyn_count+1]` when that index exists, else
`None`.  The `getD` defaults are never taken: the guard puts the used indices
in bounds. -/
def parseDyn (sensorKey : String) (sensorName : Option String)
    (separator : Option String) (dynCount i : Nat) (dynData : List String) :
    List DynamicData :=
  dynData.filterMap fun line =>
    let fields := pySplit separator line
    if fields.length > dynCount then
      some (mkDynamicData sensorKey sensorName (fields.getD 0 "")
        (fields.getD (i + 1) "")
        (if fields.length > dynCount + 1 then some (fields.getD (dynCount + 1) "") else none))
    else none

/-- `SensorCommand.update_sensors`: a missing output or an exit code above 0
clears every sensor; otherwise the non-dynamic prefix of `sensors` takes
`stdout[i]` (or `None` beyond the end of stdout) and, from the first dynamic
sensor on, every remaining sensor is dynamic (enforced by `check`) and is
updated with its parsed rows, an empty parse becoming `None`.  When there is
no dynamic sensor the prefix is the whole list and the dynamic part is
empty, matching the source's early return. -/
def updateSensors (cmd : SensorCommand) : SensorCommand :=
  match cmd.output with
  | none => { cmd with sensors := clearSensorValues cmd.sensors }
  | some output =>
    if output.code > 0 then
      { cmd with sensors := clearSensorValues cmd.sensors }
    else
      let data := output.stdout
      let dynStart := cmd.sensors.findIdx Sensor.dynamic
      let staticUpd := (cmd.sensors.take dynStart).enum.map fun p =>
        update p.2
          (match data.get? p.1 with
           | some d => UpdateData.strData d
           | none => UpdateData.nullData)
      let dynData := data.drop dynStart
      let dynSensors := cmd.sensors.drop dynStart
      let dynCount := dynSensors.length
      let dynUpd := dynSensors.enum.map fun p =>
        let rows := parseDyn p.2.key p.2.name cmd.separator dynCount p.1 dynData
        update p.2
          (if rows.isEmpty then UpdateData.nullData else UpdateData.rowsData rows)
      { cmd with sensors := staticUpd ++ dynUpd }

end SensMod

/-! ## `command.py` — `Command.check`, `SensorCommand.check`,
`SensorCommand.linked_sensors` (claims C2, C10)

The configuration-checking claims only read keys and flags, so sensors and
commands are first-order records here (needed anyway because `detect_loop`
compares commands with `==`).  `required_sensors` — in the source the set of
`&{...}` identifiers of the command string — is carried as explicit data.
Renderers are `None` throughout, for which the renderer re-check at the end
of `Command.check` is the source's early `return`.  Collections consist of
sensor commands; the walk's node set is exactly `sensor_commands`. -/

namespace GraphMod

/-- A dynamic child sensor: only its key matters to the checks. -/
structure ChildS where
  key : String
deriving DecidableEq, Repr

/-- A sensor of a sensor command: key, dynamic flag, `_linked_sensors`, and
current children. -/
structure SensorS where
  key : String
  dynamic : Bool
  linked : List String
  children : List ChildS
deriving DecidableEq, Repr

/-- A sensor command: command string, the identifiers of the string's
`&{...}` sensor template fields (`required_sensors`), `_linked_sensors`, and
the owned sensors. -/
structure SensorCommandS where
  string : String
  required : List String
  linked : List String
  sensors : List SensorS
deriving DecidableEq, Repr

/-- `command.PLACEHOLDER_KEY`. -/
def PLACEHOLDER_KEY : String := "_"

/-- The keys of `SensorCommand.sensors_by_key`: every non-placeholder owned
sensor together with its children (the dict collapses duplicates, which does
not change membership). -/
def sensorsByKeyKeys (c : SensorCommandS) : List String :=
  (c.sensors.filter (fun s => s.key ≠ PLACEHOLDER_KEY)).flatMap
    (fun s => s.key :: s.children.map ChildS.key)

/-- `SensorCommand.linked_sensors`: union of the command's own
`_linked_sensors` with every owned sensor's `linked_sensors`, minus the keys
of `sensors_by_key`.  The source builds a set; `eraseDups` keeps the model's
list membership-equal to it. -/
def linkedSensors (c : SensorCommandS) : List String :=
  ((c.linked ++ c.sensors.flatMap SensorS.linked).eraseDups).filter
    (fun k => ¬ (sensorsByKeyKeys c).contains k)

/-- `Command.sub_sensors`: union of required and linked sensors. -/
def subSensors (c : SensorCommandS) : List String :=
  (c.required ++ linkedSensors c).eraseDups

/-- A collection (`collection.Collection`) restricted to sensor commands. -/
structure CollectionS where
  sensorCommands : List SensorCommandS
deriving DecidableEq, Repr

/-- `Collection.sensor_commands_by_sensor_key`: a dict comprehension over the
commands in order, so for a key owned by several commands the last wins. -/
def byKey (col : CollectionS) (k : String) : Option SensorCommandS :=
  (col.sensorCommands.filter (fun c => (sensorsByKeyKeys c).contains k)).getLast?

/-- The key set of `Collection.sensors_by_key` (same keys as
`sensor_commands_by_sensor_key`). -/
def allSensorKeys (col : CollectionS) : List String :=
  col.sensorCommands.flatMap sensorsByKeyKeys

/-- The exceptions the checks can raise (`CommandError` / `InvalidSensorError`
variants, tagged by what the message names).  `fuelOut` is the model's
recursion bound running out; see `step` for why the callers' bound never
does. -/
inductive CheckErr where
  | sensorNotFound (k : String)
  | loopDetected (k : String)
  | mustBeDynamic (k : String)
  | linkedNotFound (sensorKey k : String)
  | fuelOut
deriving DecidableEq, Repr

/-- The two program points of `detect_loop`: entering a command
(`walkIn commands command`), and the per-key loop over a command's
`sub_sensors` (`procIn commands sub_commands keys`). -/
inductive StepIn where
  | walkIn (commands : List SensorCommandS) (command : SensorCommandS)
  | procIn (commands : List SensorCommandS) (subs : List SensorCommandS)
      (keys : List String)
deriving DecidableEq, Repr

/-- `detect_loop` of `Command.check`, as a fuel-indexed step function so that
the shared mutable `commands` list is explicit.  On entry the command is
appended to `commands` if new; each key is looked up in
`sensor_commands_by_sensor_key` (missing -> `Sensor not found`), a target
already in `commands` raises `Loop detected`, a target already in the local
`sub_commands` is skipped, and otherwise the walk recurses into the target.
Every transition consumes one fuel; the source needs no fuel because
`commands` strictly grows on every nested entry, bounding the recursion
depth by the number of commands, and each level runs finitely many key
steps — the callers pass fuel exceeding that total. -/
def step (col : CollectionS) : Nat → StepIn → Except CheckErr (List SensorCommandS)
  | 0, _ => Except.error CheckErr.fuelOut
  | fuel + 1, StepIn.walkIn commands command =>
    let commands := if command ∈ commands then commands else commands ++ [command]
    step col fuel (StepIn.procIn commands [] (subSensors command))
  | _ + 1, StepIn.procIn commands _ [] => Except.ok commands
  | fuel + 1, StepIn.procIn commands subs (k :: ks) =>
    match byKey col k with
    | none => Except.error (CheckErr.sensorNotFound k)
    | some sub =>
      if sub ∈ commands then Except.error (CheckErr.loopDetected k)
      else if sub ∈ subs then step col fuel (StepIn.procIn commands subs ks)
      else
        match step col fuel (StepIn.walkIn commands sub) with
        | Except.error e => Except.error e
        | Except.ok commands2 =>
          step col fuel (StepIn.procIn commands2 (subs ++ [sub]) ks)

/-- Fuel passed to `step` by `Command.check`: walks visit at most
`sensorCommands.length + 1` nodes, each spending one step per key of its
`sub_sensors` plus two bookkeeping steps. -/
def walkFuel (col : CollectionS) : Nat :=
  (col.sensorCommands.length + 1) *
    ((col.sensorCommands.map (fun c => (subSensors c).length)).sum + 2) + 2

/-- `Sensor.check`: every linked sensor key must be present in
`collection.sensors_by_key` (the first missing one is raised; a present
`Sensor` object is always truthy). -/
def sensorCheck (col : CollectionS) (s : SensorS) : Except CheckErr Unit :=
  match s.linked.find? (fun k => ¬ (allSensorKeys col).contains k) with
  | some k => Except.error (CheckErr.linkedNotFound s.key k)
  | none => Except.ok ()

/-- The sensor loop of `SensorCommand.check`: the running `dynamic` flag is
set as soon as a dynamic sensor is seen; a later non-dynamic sensor raises;
each sensor is then checked against the collection. -/
def checkSensorsList (col : CollectionS) : Bool → List SensorS → Except CheckErr Unit
  | _, [] => Except.ok ()
  | dyn, s :: rest =>
    let dyn := dyn || s.dynamic
    if dyn ∧ ¬ s.dynamic then Except.error (CheckErr.mustBeDynamic s.key)
    else
      match sensorCheck col s with
      | Except.error e => Except.error e
      | Except.ok _ => checkSensorsList col dyn rest

/-- `SensorCommand.check`: the sensor loop, then `Command.check`'s
`detect_loop` walk (the renderer re-check being a no-op for `renderer=None`). -/
def commandCheck (col : CollectionS) (c : SensorCommandS) : Except CheckErr Unit :=
  match checkSensorsList col false c.sensors with
  | Except.error e => Except.error e
  | Except.ok _ =>
    match step col (walkFuel col) (StepIn.walkIn [] c) with
    | Except.error e => Except.error e
    | Except.ok _ => Except.ok ()

/-- The loop of `Collection.check`: check each command in order, the first
exception propagating. -/
def checkCommands (col : CollectionS) : List SensorCommandS → Except CheckErr Unit
  | [] => Except.ok ()
  | c :: rest =>
    match commandCheck col c with
    | Except.error e => Except.error e
    | Except.ok _ => checkCommands col rest

/-- `Collection.check`. -/
def collectionCheck (col : CollectionS) : Except CheckErr Unit :=
  checkCommands col col.sensorCommands

/-- The claim's dependency graph: `c` steps to `t` when some key of
`c.sub_sensors` is owned (via `sensor_commands_by_sensor_key`) by `t`;
`Reaches col c d` is the transitive closure (at least one step). -/
inductive Reaches (col : CollectionS) : SensorCommandS → SensorCommandS → Prop where
  | single {c t : SensorCommandS} {k : String} :
      k ∈ subSensors c → byKey col k = some t → Reaches col c t
  | trans {c t d : SensorCommandS} {k : String} :
      k ∈ subSensors c → byKey col k = some t → Reaches col t d → Reaches col c d

/-- A non-dynamic sensor positioned after a dynamic one (the claim's
sensor-ordering violation). -/
def hasStaticAfterDynamic : List SensorS → Bool
  | [] => false
  | s :: rest =>
    (s.dynamic && rest.any (fun t => !t.dynamic)) || hasStaticAfterDynamic rest

end GraphMod

/-! ## Concrete fixtures used by the evaluation theorems -/

namespace Fixtures

/-- A plain static sensor with key `a`. -/
def sensorA : SensMod.Sensor :=
  { name := none, key := "a", dynamic := false, value := none
    lastKnownValue := none, children := [] }

/-- Output of a command that exited with code `-1` and printed one line. -/
def outNeg : SensMod.CommandOutput :=
  { command_string := "c", timestamp := 0, stdout := ["5"], stderr := [], code := -1 }

/-- A sensor command holding `outNeg`. -/
def cmdNeg : SensMod.SensorCommand :=
  { string := "c", separator := none, interval := none
    sensors := [sensorA], output := some outNeg }

/-- Output of a command that exited with code `2`. -/
def outPos : SensMod.CommandOutput :=
  { command_string := "c", timestamp := 0, stdout := ["5"], stderr := [], code := 2 }

/-- A sensor command holding `outPos`. -/
def cmdPos : SensMod.SensorCommand :=
  { string := "c", separator := none, interval := none
    sensors := [sensorA], output := some outPos }

/-- An existing dynamic child with key `p_a`. -/
def childA : SensMod.ChildSensor :=
  { name := some "A", key := "p_a", id := some "a"
    value := some "1", lastKnownValue := some "1" }

/-- An existing dynamic child with key `p_b`. -/
def childB : SensMod.ChildSensor :=
  { name := some "B", key := "p_b", id := some "b"
    value := some "2", lastKnownValue := some "2" }

/-- A dynamic sensor with key `p` and the two stale children above. -/
def parentP : SensMod.Sensor :=
  { name := none, key := "p", dynamic := true, value := some "v"
    lastKnownValue := some "v", children := [childA, childB] }

/-- The single fresh row of the update: child key `p_c`. -/
def rowC : SensMod.DynamicData := SensMod.mkDynamicData "p" none "c" "dc" none

/-- A sensor command whose `_linked_sensors` names the key `x`, which no
sensor command of the collection owns; its one sensor is static and has no
linked sensors, so the collection has no cycle and no ordering violation. -/
def cmdM : GraphMod.SensorCommandS :=
  { string := "cm", required := [], linked := ["x"]
    sensors := [{ key := "a", dynamic := false, linked := [], children := [] }] }

/-- The collection containing only `cmdM`. -/
def colM : GraphMod.CollectionS := { sensorCommands := [cmdM] }

/-- A concrete action command with key `run`. -/
def xcmd : CollMod.ActionCommand :=
  { string := "run x", timeout := none, name := some "Run", key := "run"
    attributes := [], linked := [] }

/-- Diamond collection, left branch: owns `s1`, links `s3`. -/
def cmdC1 : GraphMod.SensorCommandS :=
  { string := "c1", required := [], linked := ["s3"]
    sensors := [{ key := "s1", dynamic := false, linked := [], children := [] }] }

/-- Diamond collection, right branch: owns `s2`, links `s3`. -/
def cmdC2 : GraphMod.SensorCommandS :=
  { string := "c2", required := [], linked := ["s3"]
    sensors := [{ key := "s2", dynamic := false, linked := [], children := [] }] }

/-- Diamond collection, shared sink: owns `s3`, links nothing. -/
def cmdC3 : GraphMod.SensorCommandS :=
  { string := "c3", required := [], linked := []
    sensors := [{ key := "s3", dynamic := false, linked := [], children := [] }] }

/-- Diamond collection, root: owns `r`, links `s1` and `s2`. -/
def cmdR : GraphMod.SensorCommandS :=
  { string := "cr", required := [], linked := ["s1", "s2"]
    sensors := [{ key := "r", dynamic := false, linked := [], children := [] }] }

/-- The acyclic diamond collection: root -> C1 -> C3 and root -> C2 -> C3. -/
def colD : GraphMod.CollectionS := { sensorCommands := [cmdR, cmdC1, cmdC2, cmdC3] }

/-- Topological rank of the diamond's commands (edges strictly increase it). -/
def rankD (c : GraphMod.SensorCommandS) : Nat :=
  if c = cmdR then 0 else if c = cmdC1 ∨ c = cmdC2 then 1 else 2

end Fixtures

/-! ## Theorems -/

/-- C8: `handle_ping_error` sets `online` to `false`; a `TURN_OFF` request
becomes `None` and a `RESTART` request becomes `TURN_ON`, any other request
is unchanged; `connected` and `error` are untouched. -/
theorem c8_handle_ping_error (s : StateMod.State) :
    (StateMod.handlePingError s).online = false
    ∧ (StateMod.handlePingError s).request =
        (match s.request with
         | some StateMod.Request.turn_off => none
         | some StateMod.Request.restart => some StateMod.Request.turn_on
         | r => r)
    ∧ (StateMod.handlePingError s).connected = s.connected
    ∧ (StateMod.handlePingError s).error = s.error := by
  obtain ⟨online, connected, request, error⟩ := s
  cases request with
  | none => simp [StateMod.handlePingError]
  | some r => cases r <;> simp [StateMod.handlePingError]

/-- C9: with only `payload_on` set the conversion is `true` exactly on the
payload and `false` on everything else (the word lists are never consulted);
symmetrically with only `payload_off`; with both payloads set and a string
matching neither, or with no payload, the case-insensitive word lists decide,
and a string on neither list raises (`none`). -/
theorem c9_binary_convert (a b : String) (ha : a ≠ "") (hb : b ≠ "") (s : String) :
    BinMod.binaryConvert (some a) none s = some (decide (s = a))
    ∧ BinMod.binaryConvert none (some b) s = some (!decide (s = b))
    ∧ (s ≠ a → s ≠ b → BinMod.binaryConvert (some a) (some b) s =
        (if TM.pyLower s ∈ BinMod.TRUE_STRINGS then some true
         else if TM.pyLower s ∈ BinMod.FALSE_STRINGS then some false
         else none))
    ∧ BinMod.binaryConvert none none s =
        (if TM.pyLower s ∈ BinMod.TRUE_STRINGS then some true
         else if TM.pyLower s ∈ BinMod.FALSE_STRINGS then some false
         else none) := by
  refine ⟨?_, ?_, ?_, ?_⟩
  · by_cases h : s = a <;> simp [BinMod.binaryConvert, BinMod.truthy, ha, h]
    intro h'
    exact absurd h'.symm h
  · by_cases h : s = b <;> simp [BinMod.binaryConvert, BinMod.truthy, hb, h]
    intro h'
    exact absurd h'.symm h
  · intro hsa hsb
    have h1 : ¬ (some a = some s) := by simpa using fun h => hsa h.symm
    have h2 : ¬ (some b = some s) := by simpa using fun h => hsb h.symm
    simp [BinMod.binaryConvert, BinMod.truthy, ha, hb, h1, h2]
  · simp [BinMod.binaryConvert, BinMod.truthy]

/-- Witness for C9: with `payload_on = "x"` and no `payload_off`, even the
string `"true"` converts to `false`. -/
theorem c9_binary_convert_witness :
    BinMod.binaryConvert (some "x") none "true" = some false := by
  have h := (c9_binary_convert "x" "y" (by decide) (by decide) "true").1
  simpa using h

/-- `_update_value` on non-null data is determined by the pipeline outcome:
failure clears only `value`, success writes both fields. -/
theorem updateValue_eq_pipeline {α : Type} (s : PipeMod.Sensor α) (d : String) :
    PipeMod.updateValue s (some d) =
      (match PipeMod.pipeline s d with
       | none => (none, s.lastKnownValue)
       | some v => (some v, some v)) := by
  simp only [PipeMod.updateValue, PipeMod.pipeline]
  rcases hr : PipeMod.render s.renderer d with _ | vs
  · simp [hr]
  · simp only [hr]
    rcases hc : s.convert vs with _ | v
    · simp [hc]
    · simp only [hc]
      by_cases hv : s.validate v = true <;> simp [hv]

/-- C6: on a non-dynamic sensor, `update` leaves `last_known_value`
untouched when the data is null or the render/convert/validate pipeline
fails (only `value` becomes null); a successful pipeline sets both fields to
the new value; and whenever the resulting `value` is non-null it equals the
resulting `last_known_value`. -/
theorem c6_last_known_value {α : Type} (s : PipeMod.Sensor α) (data : Option String) :
    (data = none → PipeMod.update s data = { s with value := none })
    ∧ (∀ d, data = some d → PipeMod.pipeline s d = none →
        PipeMod.update s data = { s with value := none })
    ∧ (∀ d v, data = some d → PipeMod.pipeline s d = some v →
        PipeMod.update s data = { s with value := some v, lastKnownValue := some v })
    ∧ ((PipeMod.update s data).value ≠ none →
        (PipeMod.update s data).lastKnownValue = (PipeMod.update s data).value) := by
  refine ⟨?_, ?_, ?_, ?_⟩
  · rintro rfl
    simp [PipeMod.update, PipeMod.updateValue]
  · rintro d rfl hp
    simp [PipeMod.update, updateValue_eq_pipeline, hp]
  · rintro d v rfl hp
    simp [PipeMod.update, updateValue_eq_pipeline, hp]
  · cases data with
    | none => simp [PipeMod.update, PipeMod.updateValue]
    | some d =>
      simp only [PipeMod.update, updateValue_eq_pipeline]
      cases PipeMod.pipeline s d with
      | none => simp
      | some v => simp

/-- Witness for C6: a concrete string sensor whose pipeline succeeds on
`" v "`, setting both value fields to the stripped reading. -/
theorem c6_last_known_value_witness :
    PipeMod.update
      ({ renderer := none, convert := fun x => some x, validate := fun _ => true
         value := some "p", lastKnownValue := some "q" } : PipeMod.Sensor String)
      (some " v ")
    = { renderer := none, convert := fun x => some x, validate := fun _ => true
        value := some "v", lastKnownValue := some "v" } := by
  exact (c6_last_known_value _ (some " v ")).2.2.1 " v " "v" rfl (by decide)

/-- C1 (code bug): with clean polls and a successful `async_set`, the manager
compares `values[i] != sensor.value` after `values[i]` has been overwritten
with `async_set`'s `None` return value.  First run: the intended value `"on"`
is observed by the second poll — the set worked — yet
`SensorError("Value not set correctly")` is recorded.  Second run: the
observed value is `None`, differing from the intended `"on"`, yet no error is
recorded.  Both contradict "error iff observed differs from intended". -/
theorem c1_set_value_comparison_bug :
    MgrMod.setSensorValues
        [({ key := "switch", pollError1 := none, setRaises := none
            pollError2 := none, observed := some "on" } : MgrMod.SetStep String)]
        ["on"]
      = [some (MgrMod.SetErr.sensorErr "switch" "Value not set correctly")]
    ∧ MgrMod.setSensorValues
        [({ key := "switch", pollError1 := none, setRaises := none
            pollError2 := none, observed := none } : MgrMod.SetStep String)]
        ["on"]
      = [none] := by
  exact ⟨rfl, rfl⟩

/-- Updating any base sensor with null data clears `value` and the values of
all current children (dynamic sensors keep their children, static ones drop
them). -/
theorem update_null_values (s : SensMod.Sensor) :
    (SensMod.update s SensMod.UpdateData.nullData).value = none
    ∧ ∀ c ∈ (SensMod.update s SensMod.UpdateData.nullData).children, c.value = none := by
  by_cases hd : s.dynamic
  · refine ⟨by simp [SensMod.update, hd, SensMod.updateChildSensors], ?_⟩
    intro c hc
    simp only [SensMod.update, hd, if_true, SensMod.updateChildSensors] at hc
    simp only [List.mem_map] at hc
    obtain ⟨a, -, rfl⟩ := hc
    simp [SensMod.updateChild, SensMod.updateValueBase]
  · simp [SensMod.update, hd, SensMod.updateValueBase]

/-- C5 counterexample: an output with exit code `-1` (nonzero) is not treated
as null — the stored stdout line `"5"` is parsed into the sensor, whose value
becomes `some "5"` instead of the `none` the claim demands. -/
theorem c5_exit_code_counterexample :
    Fixtures.outNeg.code ≠ 0
    ∧ Fixtures.cmdNeg.output = some Fixtures.outNeg
    ∧ (SensMod.updateSensors Fixtures.cmdNeg).sensors.map SensMod.Sensor.value = [some "5"]
    ∧ ([some "5"] : List (Option String)) ≠ [none] := by
  refine ⟨by decide, rfl, ?_, by decide⟩
  decide

/-- C5 (amended): `update_sensors` treats the output as null for every owned
sensor exactly when the exit code is greater than 0 (not for every nonzero
code): all sensors are cleared as by `clear_sensor_values`, every value is
null and no stdout line is parsed. -/
theorem c5_positive_exit_clears (cmd : SensMod.SensorCommand)
    (out : SensMod.CommandOutput) (h1 : cmd.output = some out) (h2 : out.code > 0) :
    (SensMod.updateSensors cmd).sensors = SensMod.clearSensorValues cmd.sensors
    ∧ ∀ s ∈ (SensMod.updateSensors cmd).sensors,
        s.value = none ∧ ∀ c ∈ s.children, c.value = none := by
  have hs : SensMod.updateSensors cmd =
      { cmd with sensors := SensMod.clearSensorValues cmd.sensors } := by
    simp [SensMod.updateSensors, h1, h2]
  refine ⟨by rw [hs], ?_⟩
  rw [hs]
  intro s hsm
  simp only [SensMod.clearSensorValues, List.mem_map] at hsm
  obtain ⟨a, -, rfl⟩ := hsm
  exact update_null_values a

/-- Witness for C5 (amended): a command whose output exited with code 2 has
all its sensors cleared. -/
theorem c5_positive_exit_clears_witness :
    (SensMod.updateSensors Fixtures.cmdPos).sensors =
      SensMod.clearSensorValues Fixtures.cmdPos.sensors :=
  (c5_positive_exit_clears Fixtures.cmdPos Fixtures.outPos rfl (by decide)).1

/-- C4 counterexample: one dynamic sensor (`dyn_count = 1`), line
`"i,d,n1,n2"` split on `","` into 4 fields.  The row is kept and its human
name is `"n1"` — the field at index `dyn_count + 1 = 2` — while the last
field of the line is `"n2"`.  The claim's "name taken from the last field"
is false. -/
theorem c4_name_field_counterexample :
    (SensMod.parseDyn "s" none (some ",") 1 0 ["i,d,n1,n2"]).map SensMod.DynamicData.name
      = ["n1"]
    ∧ (SensMod.pySplit (some ",") "i,d,n1,n2").getLast? = some "n2"
    ∧ ("n1" : String) ≠ "n2" := by
  refine ⟨by decide, by decide, by decide⟩

/-- C4 (amended): a line with fewer than `dyn_count + 1` fields is discarded;
a kept line gives dynamic sensor `k` the row built from `fields[0]` (id,
stripped) and `fields[k+1]` (data), with key the slug of the id; when more
than `dyn_count + 1` fields are present the human name is taken from the
field at index `dyn_count + 1` — the first extra field, which is the last
field only when there are exactly `dyn_count + 2` — and with exactly
`dyn_count + 1` fields there is no name field and the display name falls
back to the id.

Two source error paths are excluded by hypothesis rather than asserted
about: the separator is not the empty string (Python `str.split` raises
`ValueError` there), and for the row-producing clauses the id field is
nonempty after stripping (`name_to_key` raises `NameKeyError` on a falsy
name, so the source produces no row for such a kept line — the exception
propagates out of `update_sensors`). -/
theorem c4_dynamic_row_layout (key : String) (sensorName : Option String)
    (sep : Option String) (n k : Nat) (line : String) (fields : List String)
    (hf : fields = SensMod.pySplit sep line) (_hk : k < n)
    (_hsep : sep ≠ some "") :
    (fields.length < n + 1 → SensMod.parseDyn key sensorName sep n k [line] = [])
    ∧ (n + 1 < fields.length → fields.getD (n + 1) "" ≠ "" → sensorName = none →
        TM.pyStrip (fields.getD 0 "") ≠ "" →
        SensMod.parseDyn key sensorName sep n k [line] =
          [{ id := TM.pyStrip (fields.getD 0 "")
             key := key ++ "_" ++ TM.nameToKey (TM.pyStrip (fields.getD 0 ""))
             name := TM.pyStrip (fields.getD (n + 1) "")
             data := fields.getD (k + 1) "" }])
    ∧ (fields.length = n + 1 → sensorName = none →
        TM.pyStrip (fields.getD 0 "") ≠ "" →
        SensMod.parseDyn key sensorName sep n k [line] =
          [{ id := TM.pyStrip (fields.getD 0 "")
             key := key ++ "_" ++ TM.nameToKey (TM.pyStrip (fields.getD 0 ""))
             name := TM.pyStrip (fields.getD 0 "")
             data := fields.getD (k + 1) "" }]) := by
  subst hf
  refine ⟨?_, ?_, ?_⟩
  · intro hlen
    have hng : ¬ (SensMod.pySplit sep line).length > n := by omega
    simp [SensMod.parseDyn, hng]
  · intro h1 h2 hsn _hid
    subst hsn
    have hgt : (SensMod.pySplit sep line).length > n := by omega
    simp [SensMod.parseDyn, hgt, h1, SensMod.mkDynamicData, h2]
    intro hcontra
    exact absurd ((List.getD_eq_getElem _ "" (by omega)).trans hcontra) h2
  · intro hlen hsn _hid
    subst hsn
    have hgt : (SensMod.pySplit sep line).length > n := by omega
    have hng : ¬ (SensMod.pySplit sep line).length > n + 1 := by omega
    simp [SensMod.parseDyn, hgt, hng, SensMod.mkDynamicData]

/-- Witness for C4 (amended): two dynamic sensors, line `"a;b;c;d"`; the
second dynamic sensor's row takes data from field 2 and its name from field
3. -/
theorem c4_dynamic_row_layout_witness :
    SensMod.parseDyn "w" none (some ";") 2 1 ["a;b;c;d"] =
      [{ id := "a", key := "w_a", name := "d", data := "c" }] := by
  have h := (c4_dynamic_row_layout "w" none (some ";") 2 1 "a;b;c;d"
      (SensMod.pySplit (some ";") "a;b;c;d") rfl (by decide) (by decide)).2.1
      (by decide) (by decide) rfl (by decide)
  rw [h]
  decide

/-- C3 (code bug): a dynamic sensor with two stale children `p_a`, `p_b` is
updated with a single row whose child key is `p_c`.  `_update_child_sensors`
removes `p_a` while iterating the list it mutates, so the iterator skips
`p_b`: the surviving child keys are `p_b, p_c`, not the claimed row-key set
`p_c`. -/
theorem c3_child_reconciliation_bug :
    ((SensMod.update Fixtures.parentP
        (SensMod.UpdateData.rowsData [Fixtures.rowC])).children.map
          SensMod.ChildSensor.key) = ["p_b", "p_c"]
    ∧ ([Fixtures.rowC].map SensMod.DynamicData.key) = ["p_c"]
    ∧ (["p_b", "p_c"] : List String) ≠ ["p_c"] := by
  refine ⟨by decide, by decide, by decide⟩

/-- `action_commands_by_key` returns a member of the list carrying the
looked-up key. -/
theorem actionCommandsByKey_some {cmds : List CollMod.ActionCommand} {k : String}
    {c : CollMod.ActionCommand} (h : CollMod.actionCommandsByKey cmds k = some c) :
    c ∈ cmds ∧ c.key = k := by
  have hm : c ∈ cmds.filter (fun y => y.key = k) := List.mem_of_mem_getLast? h
  have := List.mem_filter.mp hm
  exact ⟨this.1, by simpa using this.2⟩

/-- The name-defaulting step does not touch the key. -/
theorem withDefaultName_key (an : String → Option String) (x : CollMod.ActionCommand) :
    (CollMod.withDefaultName an x).key = x.key := by
  unfold CollMod.withDefaultName
  by_cases hc : CollMod.nameFalsy x.name ∧ (an x.key).isSome <;> simp [hc]

/-- With key-distinct commands, `add_action_command` splits into a rest that
contains no command with the inserted key, followed by the processed
command. -/
theorem addActionCommand_split (an : String → Option String)
    (cmds : List CollMod.ActionCommand) (x : CollMod.ActionCommand)
    (h : (cmds.map CollMod.ActionCommand.key).Nodup) :
    ∃ base : List CollMod.ActionCommand,
      CollMod.addActionCommand an cmds x = base ++ [CollMod.withDefaultName an x]
      ∧ (∀ c ∈ base, c.key ≠ x.key) ∧ base.Sublist cmds := by
  by_cases hs : (CollMod.actionCommandsByKey cmds x.key).isSome
  · obtain ⟨z, hz⟩ := Option.isSome_iff_exists.mp hs
    obtain ⟨hzm, hzk⟩ := actionCommandsByKey_some hz
    refine ⟨CollMod.removeActionCommand cmds x.key, ?_, ?_, ?_⟩
    · unfold CollMod.addActionCommand
      rw [if_pos hs]
    · intro c hc hck
      unfold CollMod.removeActionCommand at hc
      rw [hz] at hc
      have hnd : cmds.Nodup := List.Nodup.of_map _ h
      obtain ⟨hne, hcm⟩ := (List.Nodup.mem_erase_iff hnd).mp hc
      exact hne (List.inj_on_of_nodup_map h hcm hzm (by rw [hck, hzk]))
    · unfold CollMod.removeActionCommand
      rw [hz]
      exact List.erase_sublist z cmds
  · refine ⟨cmds, ?_, ?_, List.Sublist.refl cmds⟩
    · unfold CollMod.addActionCommand
      rw [if_neg hs]
    · intro c hc hck
      have hnone : CollMod.actionCommandsByKey cmds x.key = none :=
        Option.not_isSome_iff_eq_none.mp hs
      unfold CollMod.actionCommandsByKey at hnone
      rw [List.getLast?_eq_none_iff] at hnone
      have hcf : c ∈ cmds.filter (fun y => y.key = x.key) :=
        List.mem_filter.mpr ⟨hc, by simpa using hck⟩
      rw [hnone] at hcf
      exact absurd hcf (List.not_mem_nil c)

/-- `add_action_command` keeps the keys of the collection pairwise
distinct — the invariant the constructor establishes and every insertion
maintains. -/
theorem addActionCommand_keys_nodup (an : String → Option String)
    (cmds : List CollMod.ActionCommand) (x : CollMod.ActionCommand)
    (h : (cmds.map CollMod.ActionCommand.key).Nodup) :
    ((CollMod.addActionCommand an cmds x).map CollMod.ActionCommand.key).Nodup := by
  obtain ⟨base, he, hb, hsub⟩ := addActionCommand_split an cmds x h
  rw [he, List.map_append]
  rw [List.nodup_append]
  refine ⟨(hsub.map CollMod.ActionCommand.key).nodup h, by simp, ?_⟩
  intro a ha hb2
  simp only [List.map_cons, List.map_nil, List.mem_singleton, withDefaultName_key] at hb2
  simp only [List.mem_map] at ha
  obtain ⟨c, hc, rfl⟩ := ha
  exact hb c hc hb2

/-- C7: with the collection's keys pairwise distinct (the invariant
`add_action_command` itself maintains), adding the same action command twice
in a row leaves the command list equal, element by element, to the list
after adding it once: the second insertion removes the previous occupant and
re-appends an identical copy in the same position. -/
theorem c7_add_action_command_idempotent (an : String → Option String)
    (cmds : List CollMod.ActionCommand) (x : CollMod.ActionCommand)
    (h : (cmds.map CollMod.ActionCommand.key).Nodup) :
    CollMod.addActionCommand an (CollMod.addActionCommand an cmds x) x
      = CollMod.addActionCommand an cmds x := by
  obtain ⟨base, he, hb, -⟩ := addActionCommand_split an cmds x h
  have hpx : (CollMod.withDefaultName an x).key = x.key := withDefaultName_key an x
  have hpxnotin : CollMod.withDefaultName an x ∉ base := fun hin =>
    hb (CollMod.withDefaultName an x) hin hpx
  have hfb : base.filter (fun c => c.key = x.key) = [] :=
    List.filter_eq_nil_iff.mpr (fun a ha => by simpa using hb a ha)
  have hlook : CollMod.actionCommandsByKey (base ++ [CollMod.withDefaultName an x]) x.key
      = some (CollMod.withDefaultName an x) := by
    unfold CollMod.actionCommandsByKey
    rw [List.filter_append, hfb, List.nil_append]
    have hone : [CollMod.withDefaultName an x].filter (fun c => c.key = x.key)
        = [CollMod.withDefaultName an x] := by simp [hpx]
    rw [hone]
    rfl
  rw [he]
  unfold CollMod.addActionCommand
  rw [hlook]
  simp only [Option.isSome_some, if_true]
  unfold CollMod.removeActionCommand
  rw [hlook]
  show ((base ++ [CollMod.withDefaultName an x]).erase (CollMod.withDefaultName an x))
      ++ [CollMod.withDefaultName an x] = base ++ [CollMod.withDefaultName an x]
  rw [List.erase_append_right _ hpxnotin, List.erase_cons_head]
  simp

/-- Witness for C7: inserting a concrete command twice into the empty
collection equals inserting it once. -/
theorem c7_add_action_command_idempotent_witness :
    CollMod.addActionCommand (fun _ => none)
        (CollMod.addActionCommand (fun _ => none) [] Fixtures.xcmd) Fixtures.xcmd
      = CollMod.addActionCommand (fun _ => none) [] Fixtures.xcmd :=
  c7_add_action_command_idempotent (fun _ => none) [] Fixtures.xcmd (by simp)

/-- C10: `SensorCommand.linked_sensors` is disjoint from the keys of the
command's own `sensors_by_key`; consequently no owned sensor that
`sensors_by_key` reports — every non-placeholder sensor and every one of its
dynamic children — has its key among the command's linked sensors, so the
command never re-polls itself after execution.  (Placeholder sensors, key
`_`, are tombstones of removed sensors and are excluded from
`sensors_by_key` by the source itself.) -/
theorem c10_linked_sensors_disjoint (c : GraphMod.SensorCommandS) :
    (∀ k ∈ GraphMod.linkedSensors c, k ∉ GraphMod.sensorsByKeyKeys c)
    ∧ ∀ s ∈ c.sensors, s.key ≠ GraphMod.PLACEHOLDER_KEY →
        s.key ∉ GraphMod.linkedSensors c
        ∧ ∀ ch ∈ s.children, ch.key ∉ GraphMod.linkedSensors c := by
  have hdis : ∀ k ∈ GraphMod.linkedSensors c, k ∉ GraphMod.sensorsByKeyKeys c := by
    intro k hk
    unfold GraphMod.linkedSensors at hk
    have := List.mem_filter.mp hk
    simpa using this.2
  refine ⟨hdis, ?_⟩
  intro s hs hkey
  have hsf : s ∈ c.sensors.filter (fun y => y.key ≠ GraphMod.PLACEHOLDER_KEY) :=
    List.mem_filter.mpr ⟨hs, by simpa using hkey⟩
  constructor
  · intro hlk
    refine hdis _ hlk ?_
    unfold GraphMod.sensorsByKeyKeys
    exact List.mem_flatMap.mpr ⟨s, hsf, List.mem_cons_self _ _⟩
  · intro ch hch hlk
    refine hdis _ hlk ?_
    unfold GraphMod.sensorsByKeyKeys
    exact List.mem_flatMap.mpr
      ⟨s, hsf, List.mem_cons_of_mem _ (List.mem_map.mpr ⟨ch, hch, rfl⟩)⟩

/-- Witness for C10: the key `a` of `cmdM`'s own sensor is not among its
linked sensors. -/
theorem c10_linked_sensors_disjoint_witness :
    "a" ∉ GraphMod.linkedSensors Fixtures.cmdM := by
  have h := (c10_linked_sensors_disjoint Fixtures.cmdM).2
    ({ key := "a", dynamic := false, linked := [], children := [] }) (by decide) (by decide)
  exact h.1

/-- The walk only ever appends to the shared `commands` list: a successful
step's result contains the input commands, and after entering a command that
command is in the result. -/
theorem step_mem_aux (col : GraphMod.CollectionS) : ∀ fuel : Nat,
    (∀ cs c r, GraphMod.step col fuel (GraphMod.StepIn.walkIn cs c) = Except.ok r →
      (∀ x ∈ cs, x ∈ r) ∧ c ∈ r)
    ∧ (∀ cs subs ks r,
        GraphMod.step col fuel (GraphMod.StepIn.procIn cs subs ks) = Except.ok r →
      ∀ x ∈ cs, x ∈ r) := by
  intro fuel
  induction fuel with
  | zero =>
    constructor
    · intro cs c r h; simp [GraphMod.step] at h
    · intro cs subs ks r h; simp [GraphMod.step] at h
  | succ n ih =>
    constructor
    · intro cs c r h
      simp only [GraphMod.step] at h
      have hm := ih.2 _ _ _ _ h
      constructor
      · intro x hx
        apply hm
        by_cases hc : c ∈ cs <;> simp [hc, hx]
      · apply hm
        by_cases hc : c ∈ cs <;> simp [hc]
    · intro cs subs ks r h
      cases ks with
      | nil =>
        simp only [GraphMod.step] at h
        obtain rfl : cs = r := by simpa using h
        exact fun x hx => hx
      | cons k0 ks =>
        simp only [GraphMod.step] at h
        split at h
        · exact Except.noConfusion h
        next sub heq =>
          by_cases h1 : sub ∈ cs
          · rw [if_pos h1] at h
            exact Except.noConfusion h
          · rw [if_neg h1] at h
            by_cases h2 : sub ∈ subs
            · rw [if_pos h2] at h
              exact ih.2 _ _ _ _ h
            · rw [if_neg h2] at h
              rcases hw : GraphMod.step col n (GraphMod.StepIn.walkIn cs sub) with e | cs2
              · rw [hw] at h
                exact Except.noConfusion h
              · rw [hw] at h
                intro x hx
                exact ih.2 _ _ _ _ h x ((ih.1 _ _ _ hw).1 x hx)

/-- If a command reachable from the current one is already in the shared
`commands` list, the walk never succeeds: it raises `Loop detected` (or an
earlier error) — this is what fires on cycles, but also on any shared
dependency. -/
theorem step_no_ok_of_reaches_aux (col : GraphMod.CollectionS) : ∀ fuel : Nat,
    (∀ cs c d r, GraphMod.Reaches col c d → (d ∈ cs ∨ d = c) →
      GraphMod.step col fuel (GraphMod.StepIn.walkIn cs c) ≠ Except.ok r)
    ∧ (∀ cs subs ks d r, (∀ x ∈ subs, x ∈ cs) → d ∈ cs →
        (∃ k ∈ ks, ∃ t, GraphMod.byKey col k = some t ∧
          (t = d ∨ GraphMod.Reaches col t d)) →
      GraphMod.step col fuel (GraphMod.StepIn.procIn cs subs ks) ≠ Except.ok r) := by
  intro fuel
  induction fuel with
  | zero =>
    constructor
    · intro cs c d r hre hd h; simp [GraphMod.step] at h
    · intro cs subs ks d r hsub hd hex h; simp [GraphMod.step] at h
  | succ n ih =>
    constructor
    · intro cs c d r hre hd h
      simp only [GraphMod.step] at h
      have hd2 : d ∈ (if c ∈ cs then cs else cs ++ [c]) := by
        rcases hd with hd | rfl
        · by_cases hc : c ∈ cs <;> simp [hc, hd]
        · by_cases hc : d ∈ cs <;> simp [hc]
      have hex : ∃ k ∈ GraphMod.subSensors c, ∃ t,
          GraphMod.byKey col k = some t ∧ (t = d ∨ GraphMod.Reaches col t d) := by
        cases hre with
        | single hk hb => exact ⟨_, hk, _, hb, Or.inl rfl⟩
        | trans hk hb hr => exact ⟨_, hk, _, hb, Or.inr hr⟩
      exact ih.2 _ [] (GraphMod.subSensors c) d r (by simp) hd2 hex h
    · intro cs subs ks d r hsub hd hex h
      cases ks with
      | nil =>
        obtain ⟨k, hk, -⟩ := hex
        exact absurd hk (List.not_mem_nil k)
      | cons k0 ks =>
        simp only [GraphMod.step] at h
        split at h
        · exact Except.noConfusion h
        next sub heq =>
          by_cases h1 : sub ∈ cs
          · rw [if_pos h1] at h
            exact Except.noConfusion h
          · rw [if_neg h1] at h
            by_cases h2 : sub ∈ subs
            · exact absurd (hsub sub h2) h1
            · rw [if_neg h2] at h
              rcases hw : GraphMod.step col n (GraphMod.StepIn.walkIn cs sub) with e | cs2
              · rw [hw] at h
                exact Except.noConfusion h
              · rw [hw] at h
                obtain ⟨k, hkmem, t, hbt, hor⟩ := hex
                rcases List.mem_cons.mp hkmem with rfl | hk3
                · have hts : t = sub := by
                    rw [hbt] at heq
                    exact Option.some.inj heq
                  subst hts
                  rcases hor with rfl | hr2
                  · exact h1 hd
                  · exact ih.1 cs t d cs2 hr2 (Or.inl hd) hw
                · refine ih.2 cs2 (subs ++ [sub]) ks d r ?_ ?_ ⟨k, hk3, t, hbt, hor⟩ h
                  · intro x hx
                    rcases List.mem_append.mp hx with hx1 | hx2
                    · exact ((step_mem_aux col n).1 _ _ _ hw).1 x (hsub x hx1)
                    · obtain rfl : x = sub := by simpa using hx2
                      exact ((step_mem_aux col n).1 _ _ _ hw).2
                  · exact ((step_mem_aux col n).1 _ _ _ hw).1 d hd

/-- A key in the pending list that no sensor command owns makes the walk
raise (`Sensor not found`, unless an earlier error fires first). -/
theorem step_no_ok_of_missing_aux (col : GraphMod.CollectionS) : ∀ fuel : Nat,
    ∀ cs subs ks r, (∃ k ∈ ks, GraphMod.byKey col k = none) →
      GraphMod.step col fuel (GraphMod.StepIn.procIn cs subs ks) ≠ Except.ok r := by
  intro fuel
  induction fuel with
  | zero => intro cs subs ks r hex h; simp [GraphMod.step] at h
  | succ n ih =>
    intro cs subs ks r hex h
    cases ks with
    | nil =>
      obtain ⟨k, hk, -⟩ := hex
      exact absurd hk (List.not_mem_nil k)
    | cons k0 ks =>
      simp only [GraphMod.step] at h
      split at h
      · exact Except.noConfusion h
      next sub heq =>
        obtain ⟨k, hkmem, hknone⟩ := hex
        rcases List.mem_cons.mp hkmem with rfl | hk3
        · rw [hknone] at heq
          exact Option.noConfusion heq
        · by_cases h1 : sub ∈ cs
          · rw [if_pos h1] at h
            exact Except.noConfusion h
          · rw [if_neg h1] at h
            by_cases h2 : sub ∈ subs
            · rw [if_pos h2] at h
              exact ih _ _ _ _ ⟨k, hk3, hknone⟩ h
            · rw [if_neg h2] at h
              rcases hw : GraphMod.step col n (GraphMod.StepIn.walkIn cs sub) with e | cs2
              · rw [hw] at h
                exact Except.noConfusion h
              · rw [hw] at h
                exact ih _ _ _ _ ⟨k, hk3, hknone⟩ h

/-- Entering a command one of whose `sub_sensors` keys is missing never
succeeds. -/
theorem walk_no_ok_of_missing (col : GraphMod.CollectionS) (fuel : Nat)
    (cs : List GraphMod.SensorCommandS) (c : GraphMod.SensorCommandS)
    (r : List GraphMod.SensorCommandS)
    (hex : ∃ k ∈ GraphMod.subSensors c, GraphMod.byKey col k = none) :
    GraphMod.step col fuel (GraphMod.StepIn.walkIn cs c) ≠ Except.ok r := by
  cases fuel with
  | zero => intro h; simp [GraphMod.step] at h
  | succ n =>
    intro h
    simp only [GraphMod.step] at h
    exact step_no_ok_of_missing_aux col n _ _ _ _ hex h

/-- The sensor loop of `SensorCommand.check` never succeeds when a
non-dynamic sensor follows a dynamic one (or when the dynamic flag is
already set and a non-dynamic sensor remains). -/
theorem checkSensorsList_no_ok (col : GraphMod.CollectionS) : ∀ (l : List GraphMod.SensorS)
    (dyn : Bool),
    (GraphMod.hasStaticAfterDynamic l = true
      ∨ (dyn = true ∧ l.any (fun s => !s.dynamic) = true)) →
    GraphMod.checkSensorsList col dyn l ≠ Except.ok () := by
  intro l
  induction l with
  | nil =>
    intro dyn hv h
    rcases hv with hv | ⟨-, hv⟩ <;> simp [GraphMod.hasStaticAfterDynamic] at hv
  | cons s rest ih =>
    intro dyn hv h
    simp only [GraphMod.checkSensorsList] at h
    by_cases hg : (dyn || s.dynamic) = true ∧ ¬ s.dynamic = true
    · rw [if_pos hg] at h; simp at h
    · rw [if_neg hg] at h
      rcases hsc : GraphMod.sensorCheck col s with e | u
      · simp [hsc] at h
      · simp only [hsc] at h
        apply ih (dyn || s.dynamic) ?_ h
        rcases hv with hv | ⟨hdyn, hany⟩
        · simp only [GraphMod.hasStaticAfterDynamic, Bool.or_eq_true, Bool.and_eq_true] at hv
          rcases hv with ⟨hsd, hrest⟩ | hv
          · exact Or.inr ⟨by simp [hsd], hrest⟩
          · exact Or.inl hv
        · subst hdyn
          by_cases hsd : s.dynamic = true
          · refine Or.inr ⟨by simp, ?_⟩
            simpa [List.any_cons, hsd] using hany
          · exact absurd ⟨by simp, by simpa using hsd⟩ hg

/-- `SensorCommand.check` never succeeds when its walk from the empty
visited list never succeeds. -/
theorem commandCheck_no_ok_of_walk (col : GraphMod.CollectionS)
    (c : GraphMod.SensorCommandS)
    (hw : ∀ r, GraphMod.step col (GraphMod.walkFuel col)
        (GraphMod.StepIn.walkIn [] c) ≠ Except.ok r) :
    GraphMod.commandCheck col c ≠ Except.ok () := by
  intro h
  unfold GraphMod.commandCheck at h
  rcases hcs : GraphMod.checkSensorsList col false c.sensors with e | u
  · simp [hcs] at h
  · simp only [hcs] at h
    rcases hst : GraphMod.step col (GraphMod.walkFuel col)
        (GraphMod.StepIn.walkIn [] c) with e | r
    · simp [hst] at h
    · exact hw r hst

/-- A command on a dependency cycle fails its check. -/
theorem commandCheck_no_ok_of_cycle (col : GraphMod.CollectionS)
    (c : GraphMod.SensorCommandS) (h : GraphMod.Reaches col c c) :
    GraphMod.commandCheck col c ≠ Except.ok () :=
  commandCheck_no_ok_of_walk col c fun r =>
    (step_no_ok_of_reaches_aux col (GraphMod.walkFuel col)).1 [] c c r h (Or.inr rfl)

/-- A command with a missing `sub_sensors` key fails its check. -/
theorem commandCheck_no_ok_of_missing (col : GraphMod.CollectionS)
    (c : GraphMod.SensorCommandS)
    (hex : ∃ k ∈ GraphMod.subSensors c, GraphMod.byKey col k = none) :
    GraphMod.commandCheck col c ≠ Except.ok () :=
  commandCheck_no_ok_of_walk col c fun r =>
    walk_no_ok_of_missing col (GraphMod.walkFuel col) [] c r hex

/-- A command with a non-dynamic sensor after a dynamic one fails its
check. -/
theorem commandCheck_no_ok_of_order (col : GraphMod.CollectionS)
    (c : GraphMod.SensorCommandS)
    (hv : GraphMod.hasStaticAfterDynamic c.sensors = true) :
    GraphMod.commandCheck col c ≠ Except.ok () := by
  intro h
  unfold GraphMod.commandCheck at h
  rcases hcs : GraphMod.checkSensorsList col false c.sensors with e | u
  · simp [hcs] at h
  · cases u
    exact checkSensorsList_no_ok col c.sensors false (Or.inl hv) hcs

/-- If any command of the list fails its check, the loop of
`Collection.check` raises. -/
theorem checkCommands_no_ok (col : GraphMod.CollectionS) :
    ∀ (l : List GraphMod.SensorCommandS) (c : GraphMod.SensorCommandS), c ∈ l →
      GraphMod.commandCheck col c ≠ Except.ok () →
      GraphMod.checkCommands col l ≠ Except.ok () := by
  intro l
  induction l with
  | nil => intro c hc; exact absurd hc (List.not_mem_nil c)
  | cons c0 rest ih =>
    intro c hc hcc h
    simp only [GraphMod.checkCommands] at h
    rcases h0 : GraphMod.commandCheck col c0 with e | u
    · simp [h0] at h
    · simp only [h0] at h
      rcases List.mem_cons.mp hc with rfl | hc2
      · cases u; exact hcc h0
      · exact ih c hc2 hcc h

/-- C2 (amended): `check()` raises whenever the sensor-command dependency
graph has a cycle, and whenever some sensor command has a non-dynamic sensor
positioned after a dynamic one, and also — contrary to the original claim's
tolerance clause — whenever any command's `sub_sensors` contains a key that
maps to no sensor command: missing keys raise `Sensor not found`.  (The
converse does not hold: `detect_loop` also raises on acyclic graphs in which
two walk paths reach the same command, so these conditions are sufficient
but not exhaustive.) -/
theorem c2_check_raise_conditions (col : GraphMod.CollectionS)
    (h : (∃ c ∈ col.sensorCommands, GraphMod.Reaches col c c)
       ∨ (∃ c ∈ col.sensorCommands, GraphMod.hasStaticAfterDynamic c.sensors = true)
       ∨ (∃ c ∈ col.sensorCommands, ∃ k ∈ GraphMod.subSensors c,
            GraphMod.byKey col k = none)) :
    GraphMod.collectionCheck col ≠ Except.ok () := by
  unfold GraphMod.collectionCheck
  rcases h with ⟨c, hc, hr⟩ | ⟨c, hc, hv⟩ | ⟨c, hc, k, hk, hbk⟩
  · exact checkCommands_no_ok col _ c hc (commandCheck_no_ok_of_cycle col c hr)
  · exact checkCommands_no_ok col _ c hc (commandCheck_no_ok_of_order col c hv)
  · exact checkCommands_no_ok col _ c hc
      (commandCheck_no_ok_of_missing col c ⟨k, hk, hbk⟩)

/-- Witness for C2 (amended): the collection `colM`, whose only command
links the unowned key `x`, fails `check()`. -/
theorem c2_check_raise_conditions_witness :
    GraphMod.collectionCheck Fixtures.colM ≠ Except.ok () :=
  c2_check_raise_conditions Fixtures.colM
    (Or.inr (Or.inr ⟨Fixtures.cmdM, by decide, "x", by decide, by decide⟩))

/-- C2 counterexample: in `colM` the single command's `_linked_sensors` names
the key `x`, which no sensor command owns.  The collection has no dependency
cycle and no sensor-ordering violation, yet `check()` raises
`Sensor not found` — refuting both the claimed "raises iff cycle or ordering
violation" and the claimed tolerance of unmapped `sub_sensors` keys. -/
theorem c2_missing_key_counterexample :
    GraphMod.collectionCheck Fixtures.colM
      = Except.error (GraphMod.CheckErr.sensorNotFound "x")
    ∧ ¬ (∃ c ∈ Fixtures.colM.sensorCommands, GraphMod.Reaches Fixtures.colM c c)
    ∧ (∀ c ∈ Fixtures.colM.sensorCommands,
        GraphMod.hasStaticAfterDynamic c.sensors = false) := by
  have hstep : ∀ k t, k ∈ GraphMod.subSensors Fixtures.cmdM →
      GraphMod.byKey Fixtures.colM k = some t → False := by
    intro k t hk hb
    have hss : GraphMod.subSensors Fixtures.cmdM = ["x"] := by decide
    rw [hss, List.mem_singleton] at hk
    subst hk
    rw [show GraphMod.byKey Fixtures.colM "x" = none from by decide] at hb
    exact Option.noConfusion hb
  refine ⟨rfl, ?_, by decide⟩
  rintro ⟨c, hc, hr⟩
  have hceq : c = Fixtures.cmdM := by simpa [Fixtures.colM, Fixtures.cmdM] using hc
  subst hceq
  cases hr with
  | single hk hb => exact hstep _ _ hk hb
  | trans hk hb hr2 => exact hstep _ _ hk hb

/-- Every target of `sensor_commands_by_sensor_key` in the diamond collection
is one of its four commands. -/
theorem byKey_colD_mem (k : String) (t : GraphMod.SensorCommandS)
    (hb : GraphMod.byKey Fixtures.colD k = some t) :
    t = Fixtures.cmdR ∨ t = Fixtures.cmdC1 ∨ t = Fixtures.cmdC2 ∨ t = Fixtures.cmdC3 := by
  unfold GraphMod.byKey at hb
  have hm := List.mem_of_mem_getLast? hb
  have := (List.mem_filter.mp hm).1
  simpa [Fixtures.colD] using this

/-- `detect_loop` is not complete for cycle detection: on the acyclic diamond
(root depends on C1 and C2, both of which depend on C3) `check()` still
raises `Loop detected`, because the visited list is shared across branches —
C3 is reached twice.  This substantiates the "sufficient but not exhaustive"
clause of the amended C2. -/
theorem diamond_check_raises_without_cycle :
    GraphMod.collectionCheck Fixtures.colD
      = Except.error (GraphMod.CheckErr.loopDetected "s3")
    ∧ ¬ (∃ c ∈ Fixtures.colD.sensorCommands, GraphMod.Reaches Fixtures.colD c c) := by
  have hstep : ∀ (c t : GraphMod.SensorCommandS) (k : String),
      GraphMod.byKey Fixtures.colD k = some t →
      (c = Fixtures.cmdR ∨ c = Fixtures.cmdC1 ∨ c = Fixtures.cmdC2 ∨ c = Fixtures.cmdC3) →
      k ∈ GraphMod.subSensors c →
      Fixtures.rankD c < Fixtures.rankD t := by
    intro c t k hb hcm hk
    rcases hcm with rfl | rfl | rfl | rfl
    · rw [show GraphMod.subSensors Fixtures.cmdR = ["s1", "s2"] from by decide] at hk
      rcases List.mem_cons.mp hk with rfl | h2
      · rw [show GraphMod.byKey Fixtures.colD "s1" = some Fixtures.cmdC1 from by decide] at hb
        obtain rfl := Option.some.inj hb
        decide
      · obtain rfl : k = "s2" := by simpa using h2
        rw [show GraphMod.byKey Fixtures.colD "s2" = some Fixtures.cmdC2 from by decide] at hb
        obtain rfl := Option.some.inj hb
        decide
    · obtain rfl : k = "s3" := by
        rw [show GraphMod.subSensors Fixtures.cmdC1 = ["s3"] from by decide] at hk
        simpa using hk
      rw [show GraphMod.byKey Fixtures.colD "s3" = some Fixtures.cmdC3 from by decide] at hb
      obtain rfl := Option.some.inj hb
      decide
    · obtain rfl : k = "s3" := by
        rw [show GraphMod.subSensors Fixtures.cmdC2 = ["s3"] from by decide] at hk
        simpa using hk
      rw [show GraphMod.byKey Fixtures.colD "s3" = some Fixtures.cmdC3 from by decide] at hb
      obtain rfl := Option.some.inj hb
      decide
    · rw [show GraphMod.subSensors Fixtures.cmdC3 = [] from by decide] at hk
      exact absurd hk (List.not_mem_nil k)
  have hrank : ∀ (c d : GraphMod.SensorCommandS), GraphMod.Reaches Fixtures.colD c d →
      (c = Fixtures.cmdR ∨ c = Fixtures.cmdC1 ∨ c = Fixtures.cmdC2 ∨ c = Fixtures.cmdC3) →
      Fixtures.rankD c < Fixtures.rankD d := by
    intro c d hr
    induction hr with
    | single hk hb => intro hcm; exact hstep _ _ _ hb hcm hk
    | trans hk hb hr2 ih =>
      intro hcm
      exact lt_trans (hstep _ _ _ hb hcm hk) (ih (byKey_colD_mem _ _ hb))
  constructor
  · rfl
  · rintro ⟨c, hc, hr⟩
    have hcm : c = Fixtures.cmdR ∨ c = Fixtures.cmdC1 ∨ c = Fixtures.cmdC2
        ∨ c = Fixtures.cmdC3 := by simpa [Fixtures.colD] using hc
    exact absurd (hrank c c hr hcm) (lt_irrefl _)
